import Mathlib

/-!
# Verification of the trimpack resolution-and-traversal core

This file embeds the core components of the trimpack repository
(`src/core/semaphore.ts`, `src/core/fs-cache.ts`, `src/core/resolver.ts`,
`src/core/realpath.ts`, `src/core/dependency-tracer.ts`,
`src/core/asset-analyzer.ts`) as executable Lean definitions and proves
properties of them.

Modelling conventions:
* JavaScript numbers that are only ever integers are modelled as `Int`
  (or `Nat` where the source guarantees non-negativity).
* `async` code is modelled by explicit state passing.  JavaScript is
  single-threaded-cooperative: the synchronous section of a function body
  (everything up to its first `await`) runs atomically, so a set of
  concurrent calls is modelled as a sequence of atomic steps.
* Fallible operations return `Option`/`Except`; a thrown exception is an
  `Except.error` or a distinguished result constructor.
* Filesystem contents and other components behind a module boundary
  (the specifier scanner, `resolveId` as seen by the traversal) are
  oracle parameters, so theorems quantify over their behaviour.
-/

namespace Trimpack

/-! ## Concurrency Gate (`src/core/semaphore.ts`)

The `Semaphore` class has fields `queue : Array<() => void>` and
`active : number`, and a constructor `limit`.  We model the observable
state; queued waiters are identified by the order in which they were
queued (`nextId` generates fresh identifiers).  -/

structure SemState where
  limit  : Int
  active : Int
  queue  : List Nat
  nextId : Nat
  deriving Repr, DecidableEq

/-- `new Semaphore(limit)`: the constructor throws
`"Semaphore limit must be at least 1"` when `limit < 1`. -/
def mkSemaphore (limit : Int) : Except String SemState :=
  if limit < 1 then .error "Semaphore limit must be at least 1"
  else .ok { limit := limit, active := 0, queue := [], nextId := 0 }

/-- Result of one `acquire()` call: either the permit is granted
immediately (`granted`), or the caller is appended to the wait queue
(`queued id`). -/
inductive AcquireOutcome where
  | granted
  | queued (id : Nat)
  deriving Repr, DecidableEq

/-- `acquire()`: if `active < limit`, increment `active` and resolve at
once; otherwise push a waiter onto the queue. -/
def acquireStep (s : SemState) : SemState × AcquireOutcome :=
  if s.active < s.limit then
    ({ s with active := s.active + 1 }, .granted)
  else
    ({ s with queue := s.queue ++ [s.nextId], nextId := s.nextId + 1 },
     .queued s.nextId)

/-- One invocation of the private `release()` method (every release
function returned by `acquire` calls this same method; there is no
per-token once-guard).  The body decrements `active` when positive,
then pops the queue head; the popped waiter's stored callback runs
synchronously, incrementing `active` and granting that waiter its
permit.  The granted waiter (if any) is returned alongside the new
state. -/
def releaseStep (s : SemState) : SemState × Option Nat :=
  let a := if s.active > 0 then s.active - 1 else s.active
  match s.queue with
  | [] => ({ s with active := a }, none)
  | w :: rest => ({ s with active := a + 1, queue := rest }, some w)

/-- A reachable state with `limit = 1`, one active holder and two queued
waiters (ids 0 and 1): construct with capacity 1 and perform three
`acquire()` calls. -/
def semOneHolderTwoWaiters : SemState :=
  (acquireStep (acquireStep (acquireStep
    { limit := 1, active := 0, queue := [], nextId := 0 }).1).1).1

example : semOneHolderTwoWaiters =
    { limit := 1, active := 1, queue := [0, 1], nextId := 2 } := by decide

/-! ## Cached Filesystem Accessor (`src/core/fs-cache.ts`)

The constructor is
`this.sem = new Semaphore(Math.max(8, opts.concurrency ?? 256))`. -/

/-- The capacity actually handed to the internal `Semaphore`:
`Math.max(8, opts.concurrency ?? 256)`.  `none` models an absent
`concurrency` option. -/
def fsCacheCapacity (concurrency : Option Int) : Int :=
  max 8 (concurrency.getD 256)

/-- The three memoized operations of `FsCache`.  `readFile` carries the
encoding (`none` models encoding `null`, i.e. raw bytes). -/
inductive FsOp where
  | readFile (path : String) (encoding : Option String)
  | stat (path : String)
  | readlink (path : String)
  deriving Repr, DecidableEq

/-- Which cache an operation uses, together with its cache key.
`readFile` keys are `` `${path}|${encoding ?? "bin"}` ``; `stat` and
`readlink` each use their own cache keyed by the path. -/
def FsOp.cacheKey : FsOp → Nat × String
  | .readFile p enc => (0, p ++ "|" ++ enc.getD "bin")
  | .stat p => (1, p)
  | .readlink p => (2, p)

/-- Cache state of an `FsCache` instance: which cache keys already hold
an in-flight promise (promises are numbered in creation order by
`nextPromise`), and the log of underlying I/O operations started so
far. -/
structure FsCacheState where
  cache : List ((Nat × String) × Nat)
  nextPromise : Nat
  ioLog : List FsOp
  deriving Repr, DecidableEq

def FsCacheState.init : FsCacheState := ⟨[], 0, []⟩

/-- One call to `readFile`/`stat`/`readlink`.  The body up to
`this.xxxCache.set(key, p)` contains no `await`, so under JavaScript's
cooperative scheduling it executes atomically: the call looks up the
cache and, on a miss, installs its in-flight promise and starts exactly
one underlying I/O operation; on a hit it returns the cached promise
and starts no I/O.  The returned `Nat` is the promise the caller
awaits. -/
def fsCall (s : FsCacheState) (op : FsOp) : FsCacheState × Nat :=
  match s.cache.lookup op.cacheKey with
  | some p => (s, p)
  | none =>
      let p := s.nextPromise
      ({ cache := s.cache ++ [(op.cacheKey, p)],
         nextPromise := p + 1,
         ioLog := s.ioLog ++ [op] }, p)

/-- Run a sequence of calls (the serialization of any concurrent
interleaving, since each call's cache check-and-install is atomic),
collecting the promise returned to each caller. -/
def fsRun : List FsOp → FsCacheState → FsCacheState × List Nat
  | [], s => (s, [])
  | op :: ops, s =>
      let (s', p) := fsCall s op
      let (s'', ps) := fsRun ops s'
      (s'', p :: ps)

/-- Appending a fresh binding to an association list that lacks the key
makes `lookup` find it. -/
lemma lookup_append_fresh {α β : Type} [BEq α] [LawfulBEq α]
    (l : List (α × β)) (k : α) (v : β)
    (h : List.lookup k l = none) :
    List.lookup k (l ++ [(k, v)]) = some v := by
  induction l with
  | nil => simp [List.lookup]
  | cons x xs ih =>
      obtain ⟨xk, xv⟩ := x
      rw [List.cons_append, List.lookup]
      rw [List.lookup] at h
      cases heq : k == xk with
      | true => rw [heq] at h; simp at h
      | false => rw [heq] at h; simpa using ih h

/-- After a call for key `k`, the cache maps `k` to some promise. -/
lemma fsCall_cache_mem (s : FsCacheState) (op : FsOp) :
    ∃ p, ((fsCall s op).1.cache).lookup op.cacheKey = some p := by
  unfold fsCall
  cases h : s.cache.lookup op.cacheKey with
  | some p => exact ⟨p, by simp [h]⟩
  | none => exact ⟨s.nextPromise, by simp [h, lookup_append_fresh _ _ _ h]⟩

/-- A call whose key is already cached changes nothing and returns the
cached promise. -/
lemma fsCall_hit (s : FsCacheState) (op : FsOp) (p : Nat)
    (h : s.cache.lookup op.cacheKey = some p) :
    fsCall s op = (s, p) := by
  unfold fsCall; rw [h]

/-- Running calls that all share one already-cached key performs no new
I/O and returns the cached promise to every caller. -/
lemma fsRun_all_hits (ops : List FsOp) (s : FsCacheState)
    (k : Nat × String) (p : Nat)
    (hall : ∀ op ∈ ops, op.cacheKey = k)
    (h : s.cache.lookup k = some p) :
    fsRun ops s = (s, ops.map fun _ => p) := by
  induction ops with
  | nil => rfl
  | cons op rest ih =>
      have hk : op.cacheKey = k := hall op (List.mem_cons_self _ _)
      have hcall : fsCall s op = (s, p) := fsCall_hit s op p (hk ▸ h)
      simp only [fsRun, hcall]
      rw [ih (fun o ho => hall o (List.mem_cons_of_mem _ ho))]
      simp [List.map]

end Trimpack

namespace Trimpack

/-! ## Theorems about the Concurrency Gate and the Cached Filesystem
Accessor -/

/-- C7: the claim asserts that a second `release()` call leaves the
gate's active count and wait queue unchanged.  In the reachable state
with capacity 1, one holder and two queued waiters, the first
`release()` call grants waiter 0 — and a second call on the same
release function grants waiter 1 and changes the queue again, so two
waiters obtained permits from a single acquisition's release function
while the capacity is 1.  This refutes the claim. -/
theorem semaphore_double_release_not_idempotent :
    let r1 := releaseStep semOneHolderTwoWaiters
    let r2 := releaseStep r1.1
    r1.2 = some 0 ∧ r2.2 = some 1 ∧
      r2.1.queue ≠ r1.1.queue ∧ r2.1 ≠ r1.1 ∧
      semOneHolderTwoWaiters.limit = 1 := by
  decide

/-- C7 (amended): repeated `release()` calls never throw (the method is
total), and a repeated call is a no-op exactly in the idle state (zero
active count, empty queue); whenever the queue is nonempty, every
`release()` call — including a repeated one — grants the next waiter a
permit, so repeated releases can hand out more permits than one
acquisition justified. -/
theorem semaphore_release_repeat (s : SemState) :
    (s.active = 0 → s.queue = [] → releaseStep s = (s, none)) ∧
    (∀ w rest, s.queue = w :: rest → (releaseStep s).2 = some w) := by
  constructor
  · intro ha hq
    obtain ⟨l, a, q, n⟩ := s
    simp only at ha hq
    subst ha; subst hq
    simp [releaseStep]
  · intro w rest hq
    simp [releaseStep, hq]

/-- Witness for `semaphore_release_repeat` at concrete states. -/
theorem semaphore_release_repeat_witness :
    releaseStep { limit := 1, active := 0, queue := [], nextId := 0 } =
      ({ limit := 1, active := 0, queue := [], nextId := 0 }, none) ∧
    (releaseStep { limit := 1, active := 1, queue := [5], nextId := 6 }).2 =
      some 5 := by
  refine ⟨?_, ?_⟩
  · exact (semaphore_release_repeat
      { limit := 1, active := 0, queue := [], nextId := 0 }).1 rfl rfl
  · exact (semaphore_release_repeat
      { limit := 1, active := 1, queue := [5], nextId := 6 }).2 5 [] rfl

/-- C8: constructing the gate with capacity 0 does not succeed — the
constructor throws `"Semaphore limit must be at least 1"` — while any
positive capacity is accepted.  This contradicts the claim (and the
repository's own `semaphore.test.ts`, whose
"should handle zero limit gracefully" case constructs `new Semaphore(0)`
and expects `acquire()` merely to block). -/
theorem semaphore_zero_capacity_throws :
    mkSemaphore 0 = .error "Semaphore limit must be at least 1" ∧
    (mkSemaphore 1).isOk = true ∧ (mkSemaphore 256).isOk = true := by
  refine ⟨rfl, rfl, rfl⟩

/-- C9: for each cached accessor operation, any number of concurrent
calls sharing one cache key trigger exactly one underlying I/O
operation: the first call installs its in-flight promise (promise 0
from the fresh instance) in the cache before suspending, and every
later call returns that same promise instead of starting new I/O. -/
theorem fsCache_dedup (ops : List FsOp) (k : Nat × String)
    (hne : ops ≠ []) (hall : ∀ op ∈ ops, op.cacheKey = k) :
    ((fsRun ops .init).1.ioLog).length = 1 ∧
    (fsRun ops .init).2 = ops.map fun _ => 0 := by
  obtain ⟨op, rest, rfl⟩ := List.exists_cons_of_ne_nil hne
  have hk : op.cacheKey = k := hall op (List.mem_cons_self _ _)
  have hcall : fsCall .init op =
      ({ cache := [(k, 0)], nextPromise := 1, ioLog := [op] }, 0) := by
    simp [fsCall, FsCacheState.init, List.lookup, hk]
  have hrest : fsRun rest
      { cache := [(k, 0)], nextPromise := 1, ioLog := [op] } =
      ({ cache := [(k, 0)], nextPromise := 1, ioLog := [op] },
        rest.map fun _ => 0) := by
    refine fsRun_all_hits rest _ k 0
      (fun o ho => hall o (List.mem_cons_of_mem _ ho)) ?_
    simp [List.lookup]
  simp [fsRun, hcall, hrest]

/-- Witness for `fsCache_dedup`: three concurrent `readFile` calls on
the same path and encoding perform one underlying read and all receive
the first call's promise. -/
theorem fsCache_dedup_witness :
    ((fsRun [.readFile "/p/a.ts" (some "utf8"),
             .readFile "/p/a.ts" (some "utf8"),
             .readFile "/p/a.ts" (some "utf8")] .init).1.ioLog).length = 1 ∧
    (fsRun [.readFile "/p/a.ts" (some "utf8"),
            .readFile "/p/a.ts" (some "utf8"),
            .readFile "/p/a.ts" (some "utf8")] .init).2 = [0, 0, 0] := by
  have h := fsCache_dedup
    [.readFile "/p/a.ts" (some "utf8"),
     .readFile "/p/a.ts" (some "utf8"),
     .readFile "/p/a.ts" (some "utf8")]
    (0, "/p/a.ts|utf8") (by decide) (by decide)
  exact ⟨h.1, by simpa using h.2⟩

/-- C10: the accessor clamps its concurrency from below: the effective
capacity is `max 8 requested` with default 256, a requested capacity
below 8 is never honoured exactly, and the internal `Semaphore` is
therefore never constructed with a capacity below 1 (which would
throw). -/
theorem fsCache_capacity_clamp :
    fsCacheCapacity none = 256 ∧
    (∀ c : Int, fsCacheCapacity (some c) = max 8 c) ∧
    (∀ c : Int, c < 8 → fsCacheCapacity (some c) = 8 ∧
      fsCacheCapacity (some c) ≠ c) ∧
    (∀ c : Option Int, 1 ≤ fsCacheCapacity c ∧
      (mkSemaphore (fsCacheCapacity c)).isOk = true) := by
  refine ⟨rfl, fun c => rfl, fun c hc => ?_, fun c => ?_⟩
  · constructor
    · simp [fsCacheCapacity, max_eq_left (le_of_lt hc)]
    · intro h
      rw [fsCacheCapacity] at h
      simp only [Option.getD_some] at h
      have h8 : (8 : Int) ≤ max 8 c := le_max_left _ _
      rw [h] at h8
      exact absurd h8 (not_le.mpr hc)
  · have h1 : (1 : Int) ≤ fsCacheCapacity c := by
      have : (8 : Int) ≤ fsCacheCapacity c := le_max_left _ _
      omega
    refine ⟨h1, ?_⟩
    rw [mkSemaphore, if_neg (by omega)]
    rfl

/-- Witness for `fsCache_capacity_clamp` at a concrete small capacity. -/
theorem fsCache_capacity_clamp_witness :
    fsCacheCapacity (some 3) = 8 ∧ fsCacheCapacity (some 3) ≠ 3 := by
  exact fsCache_capacity_clamp.2.2.1 3 (by decide)

/-! ## Built-in detection (`src/core/resolver.ts`, lines 5–22)

`builtinModules` is the platform-provided list from `node:module`; we
model it by the stable public list of Node.js built-in module names
(none of which starts with `"node:"`). -/

def nodeBuiltinModules : List String :=
  ["assert", "assert/strict", "async_hooks", "buffer", "child_process",
   "cluster", "console", "constants", "crypto", "dgram",
   "diagnostics_channel", "dns", "dns/promises", "domain", "events",
   "fs", "fs/promises", "http", "http2", "https", "inspector",
   "module", "net", "os", "path", "path/posix", "path/win32",
   "perf_hooks", "process", "punycode", "querystring", "readline",
   "readline/promises", "repl", "stream", "stream/consumers",
   "stream/promises", "stream/web", "string_decoder", "sys", "timers",
   "timers/promises", "tls", "trace_events", "tty", "url", "util",
   "util/types", "v8", "vm", "wasi", "worker_threads", "zlib"]

/-- `builtinSet`: `new Set([...builtinModules,
...builtinModules.map((m) => "node:" + m)])`. -/
def builtinSet : List String :=
  nodeBuiltinModules ++ nodeBuiltinModules.map (fun m => "node:" ++ m)

/-- `isBuiltin(id)`: `builtinSet.has(id)` — strict set membership, with
no `startsWith("node:")` prefix rule. -/
def isBuiltin (id : String) : Bool :=
  builtinSet.contains id

/-- Left-cancellation for string concatenation. -/
lemma string_append_left_cancel (p a b : String)
    (h : p ++ a = p ++ b) : a = b := by
  have hd : p.data ++ a.data = p.data ++ b.data := by
    simpa [String.data_append] using congrArg String.data h
  have hab : a.data = b.data := List.append_cancel_left hd
  cases a; cases b
  exact congrArg String.mk hab

/-- C3 (counterexample): `isBuiltin` is false on a `"node:"`-prefixed
string whose base name is not a known built-in, so it is not true that
every `"node:"`-prefixed specifier is classified as built-in.  (Known
names, prefixed or not, are classified as built-in; arbitrary bare
names are not.) -/
theorem isBuiltin_node_prefix_not_universal :
    isBuiltin "node:nonexistent" = false ∧
    isBuiltin "node:fs" = true ∧
    isBuiltin "fs" = true ∧
    isBuiltin "express" = false := by
  decide

/-- C3 (amended): `isBuiltin` of a `"node:"`-prefixed string holds iff
the prefixed string itself, or its base name, is a known platform
built-in name — exact set membership, not a prefix rule. -/
theorem isBuiltin_node_prefix_iff (s : String) :
    isBuiltin ("node:" ++ s) = true ↔
      ("node:" ++ s) ∈ nodeBuiltinModules ∨ s ∈ nodeBuiltinModules := by
  unfold isBuiltin builtinSet
  rw [List.elem_iff, List.mem_append, List.mem_map]
  constructor
  · rintro (h | ⟨m, hm, heq⟩)
    · exact Or.inl h
    · exact Or.inr (string_append_left_cancel "node:" m s heq ▸ hm)
  · rintro (h | h)
    · exact Or.inl h
    · exact Or.inr ⟨s, h, rfl⟩

/-! ## Conditional-exports resolution (`src/core/resolver.ts`,
`deriveExportTarget` / `pickStringFromEntry` / `matchWildcard`)

The `exports` field of a parsed `package.json` is arbitrary JSON. -/

inductive JsonVal where
  | str (s : String)
  | num (n : Int)
  | jbool (b : Bool)
  | null
  | arr (xs : List JsonVal)
  | obj (fields : List (String × JsonVal))

/-- JavaScript truthiness on JSON values (`undefined` is handled at the
`Option` level by callers). -/
def jsFalsy : JsonVal → Bool
  | .null => true
  | .str s => s == ""
  | .num n => n == 0
  | .jbool b => !b
  | _ => false

/-- `Object.entries` in insertion order; an array is an object with
index keys. -/
def jsEntries : JsonVal → List (String × JsonVal)
  | .obj fs => fs
  | .arr xs => xs.enum.map fun p => (toString p.1, p.2)
  | _ => []

/-- The JavaScript `??` operator over possibly-absent JSON values
(`none` models `undefined`; a present `null` also falls through). -/
def jsNullish (a b : Option JsonVal) : Option JsonVal :=
  match a with
  | some .null => b
  | some v => some v
  | none => b

/-- The condition preference order:
`preferImport ? ["import","default","require"]
             : ["require","default","import"]`. -/
def condOrder (preferImport : Bool) : List String :=
  if preferImport then ["import", "default", "require"]
  else ["require", "default", "import"]

/-- `pickStringFromEntry(entryVal, order)`: a string entry is returned
directly; a (non-array, non-null) object entry is searched first for a
string under each condition in `order`, then for the first string value
in key insertion order; anything else yields `null`. -/
def pickStringFromEntry (entryVal : Option JsonVal) (order : List String) :
    Option String :=
  match entryVal with
  | some (.str s) => some s
  | some (.obj fields) =>
      match order.findSome? (fun cond =>
          match fields.lookup cond with
          | some (.str v) => some v
          | _ => none) with
      | some v => some v
      | none =>
          fields.findSome? fun f =>
            match f.2 with
            | .str s => some s
            | _ => none
  | _ => none

/-- Split a character list at every `'*'`. -/
def splitStar : List Char → List (List Char)
  | [] => [[]]
  | c :: rest =>
      match splitStar rest with
      | [] => []
      | seg :: segs =>
          if c = '*' then [] :: seg :: segs else (c :: seg) :: segs

/-- Replace every `'*'` of `t` by `star` (the JavaScript
`t.replace(/\*/g, star)`). -/
def replaceStar (star t : String) : String :=
  ⟨t.data.foldr (fun c acc => if c = '*' then star.data ++ acc else c :: acc)
    []⟩

/-- The single-`*` wildcard match of `matchWildcard`'s `tryWildcard`:
the escaped pattern around one `(.+)` group matches `key` iff `key`
starts with the pattern's prefix, ends with its suffix, and has at
least one character in between; the matched segment is returned.
(The source's regex construction generalises to several `*`s; package
subpath patterns use a single `*`, which is what this embedding
covers — a pattern with zero or several `*`s yields no match here,
matching the source exactly in the zero-`*` case.) -/
def starMatch (patKey key : String) : Option String :=
  match splitStar patKey.data with
  | [pre, post] =>
      let k := key.data
      if pre.isPrefixOf k && post.isSuffixOf k &&
          decide (pre.length + post.length < k.length) then
        some ⟨(k.drop pre.length).take (k.length - pre.length - post.length)⟩
      else none
  | _ => none

/-- `tryWildcard(patKey, val)`: on a wildcard match, substitute the
matched segment for every `*` of a string target, or of the first
string found in a condition-object target (conditions in `order` first,
then key insertion order). -/
def tryWildcard (order : List String) (key patKey : String)
    (val : JsonVal) : Option String :=
  match starMatch patKey key with
  | none => none
  | some star =>
      match val with
      | .str s => some (replaceStar star s)
      | .obj fields =>
          match order.findSome? (fun cond =>
              match fields.lookup cond with
              | some (.str v) => some (replaceStar star v)
              | _ => none) with
          | some v => some v
          | none =>
              fields.findSome? fun f =>
                match f.2 with
                | .str s => some (replaceStar star s)
                | _ => none
      | _ => none

/-- `matchWildcard(exportsObj, key, order)`: scan the entries in
insertion order and return the first truthy wildcard-derived target
(`if (mapped) return mapped` skips an empty-string result). -/
def matchWildcard (exportsObj : List (String × JsonVal)) (key : String)
    (order : List String) : Option String :=
  exportsObj.findSome? fun e =>
    match tryWildcard order key e.1 e.2 with
    | some s => if s == "" then none else some s
    | none => none

/-- `deriveExportTarget(exportsField, key, preferImport)`: falsy exports
fields yield `null`; a string exports field is itself the target;
otherwise the entry under `key`, *falling back via `??` to the root
`"."` entry*, is given to `pickStringFromEntry`, and only a falsy
outcome of that is followed by the wildcard scan. -/
def deriveExportTarget (exportsField : Option JsonVal) (key : String)
    (preferImport : Bool) : Option String :=
  match exportsField with
  | none => none
  | some ef =>
    if jsFalsy ef then none
    else
      match ef with
      | .str s => some s
      | .obj _ | .arr _ =>
          let exportsObj := jsEntries ef
          let entryVal :=
            jsNullish (exportsObj.lookup key) (exportsObj.lookup ".")
          let order := condOrder preferImport
          match pickStringFromEntry entryVal order with
          | some s =>
              if s == "" then matchWildcard exportsObj key order
              else some s
          | none => matchWildcard exportsObj key order
      | _ => none

/-- C4 (counterexample): with exports
`{".": "./main.js", "./*": "./dist/*.js"}` and the non-root subpath key
`"./foo"` (which has no exact entry), the code's `?? exportsObj["."]`
fallback makes the root `"."` entry determine the target, not the
matching wildcard pattern — refuting the claim that only a wildcard
match can decide a non-root key without an exact entry. -/
theorem deriveExportTarget_root_shadows_wildcard :
    deriveExportTarget
      (some (.obj [(".", .str "./main.js"), ("./*", .str "./dist/*.js")]))
      "./foo" true = some "./main.js" ∧
    deriveExportTarget
      (some (.obj [(".", .str "./main.js"), ("./*", .str "./dist/*.js")]))
      "./foo" true ≠ some "./dist/foo.js" := by
  decide

/-- C4 (amended): the exports object is consulted by exact key match
first, then by falling back to the root `"."` entry, and only when
neither yields a target does wildcard subpath matching (with the
matched segment substituted into the target pattern) determine the
result. -/
theorem deriveExportTarget_order (entries : List (String × JsonVal))
    (key : String) (pref : Bool)
    (hkey : entries.lookup key = none)
    (hroot : entries.lookup "." = none) :
    deriveExportTarget (some (.obj entries)) key pref =
      matchWildcard entries key (condOrder pref) := by
  unfold deriveExportTarget
  simp [jsFalsy, jsEntries, jsNullish, hkey, hroot, pickStringFromEntry]

/-- Witness for `deriveExportTarget_order`, carrying the specification's
wildcard example: exports `{"./*": "./dist/*.js"}` resolves the subpath
key `"./foo/bar"` to `"./dist/foo/bar.js"`. -/
theorem deriveExportTarget_order_witness :
    deriveExportTarget (some (.obj [("./*", .str "./dist/*.js")]))
      "./foo/bar" true = some "./dist/foo/bar.js" := by
  rw [deriveExportTarget_order [("./*", .str "./dist/*.js")] "./foo/bar"
    true rfl rfl]
  decide

/-! ## POSIX path model (`node:path`)

The repository calls `dirname`, `basename`, `join`, `resolve` and
`extname` from `node:path`.  These platform functions are modelled
character-wise (so that the kernel can evaluate them) following Node's
documented POSIX behaviour for the path shapes the code handles. -/

/-- `s` starts with `p` (character-wise `String.startsWith`). -/
def strStartsWith (p s : String) : Bool := p.data.isPrefixOf s.data

def isAbsPath (p : String) : Bool :=
  match p.data with
  | '/' :: _ => true
  | _ => false

/-- Split a character list at every occurrence of `sep`. -/
def splitChar (sep : Char) : List Char → List (List Char)
  | [] => [[]]
  | c :: rest =>
      match splitChar sep rest with
      | [] => []
      | seg :: segs =>
          if c = sep then [] :: seg :: segs else (c :: seg) :: segs

/-- Normalize path segments: drop empty and `"."` segments and resolve
`".."` against the accumulated prefix (dropping it at the root of an
absolute path, keeping it for a relative one). -/
def normSegs (abs : Bool) : List (List Char) → List (List Char) →
    List (List Char)
  | [], acc => acc.reverse
  | s :: rest, acc =>
      if s = [] ∨ s = ['.'] then normSegs abs rest acc
      else if s = ['.', '.'] then
        match acc with
        | t :: acc' =>
            if t = ['.', '.'] then normSegs abs rest (s :: acc)
            else normSegs abs rest acc'
        | [] => if abs then normSegs abs rest []
                else normSegs abs rest [['.', '.']]
      else normSegs abs rest (s :: acc)

def joinSegs : List (List Char) → List Char
  | [] => []
  | [s] => s
  | s :: rest => s ++ '/' :: joinSegs rest

/-- `path.normalize` (keeping a trailing slash, as Node does). -/
def normalizePath (p : String) : String :=
  if p = "" then "." else
  let abs := isAbsPath p
  let core := joinSegs (normSegs abs (splitChar '/' p.data) [])
  let base : List Char := if abs then '/' :: core
    else if core = [] then ['.'] else core
  if p.data.getLast? = some '/' ∧ base.getLast? ≠ some '/' ∧ core ≠ []
  then ⟨base ++ ['/']⟩ else ⟨base⟩

/-- `path.join(a, b)`. -/
def joinPosix (a b : String) : String :=
  let joined := if a = "" then b else if b = "" then a else a ++ "/" ++ b
  if joined = "" then "." else normalizePath joined

/-- `path.resolve(parent, target)` for an absolute `parent` (the only
way the repository uses it): an absolute `target` wins, otherwise
`target` is resolved against `parent`; the result carries no trailing
slash. -/
def resolvePosix (parent target : String) : String :=
  let raw := if isAbsPath target then target else parent ++ "/" ++ target
  let core := joinSegs (normSegs true (splitChar '/' raw.data) [])
  ⟨'/' :: core⟩

/-- `path.resolve(p)` with one argument: relative paths are resolved
against the current working directory. -/
def resolveCwd (cwd p : String) : String :=
  resolvePosix cwd p

/-- `path.dirname`. -/
def dirname (p : String) : String :=
  let cs := p.data
  if cs = [] then "." else
  let rev3 := (((cs.reverse.dropWhile (· = '/')).dropWhile
    (· ≠ '/')).dropWhile (· = '/'))
  if rev3 = [] then (if isAbsPath p then "/" else ".")
  else ⟨rev3.reverse⟩

/-- `path.basename` (one-argument form). -/
def basename (p : String) : String :=
  ⟨((p.data.reverse.dropWhile (· = '/')).takeWhile (· ≠ '/')).reverse⟩

/-- `path.extname`: the extension of the final path component, empty
for dotfiles (`".bashrc"`), `".."` and dot-free names. -/
def extname (p : String) : String :=
  let b := (p.data.reverse.takeWhile (· ≠ '/')).reverse
  let revb := b.reverse
  let pre := revb.takeWhile (· ≠ '.')
  if pre.length = revb.length then ""  -- no dot
  else
    let i := b.length - pre.length - 1  -- index of the last dot
    if i = 0 then ""                     -- leading-dot file
    else if b = ['.', '.'] then ""
    else ⟨'.' :: pre.reverse⟩

example : extname "/base/a.js" = ".js" := by decide
example : extname "/base/Makefile" = "" := by decide
example : extname "/base/.bashrc" = "" := by decide
example : dirname "/base/a.js" = "/base" := by decide
example : basename "/base/a.js" = "a.js" := by decide
example : resolvePosix "/t" "./priority" = "/t/priority" := by decide
example : joinPosix "/base" "/" = "/base/" := by decide

/-! ## Module resolution (`src/core/resolver.ts`, `resolveId`)

`resolveId` takes the filesystem through the `FsCache` (modelled by an
`isFile` oracle: `true` iff `fs.stat` succeeds and reports a regular
file) and — before any probing of its own — the platform resolver
`createRequire(fromFile).resolve(spec)` (modelled by a `reqResolve`
oracle).  The module-global `resolveCache` is empty in this model (a
first call for the pair). -/

def JS_EXTS : List String :=
  [".ts", ".tsx", ".mts", ".cts", ".js", ".jsx", ".mjs", ".cjs"]

/-- `isRelative(spec)`: starts with `"./"`, `"../"` or `"/"`. -/
def isRelativeSpec (spec : String) : Bool :=
  strStartsWith "./" spec || strStartsWith "../" spec ||
    strStartsWith "/" spec

/-- `resolveRelativeTs(fromFile, spec, fs)`: probe the literal path,
then the path under each extension of `JS_EXTS` in order, then the path
as a directory with `index` under each extension; the first candidate
that exists as a regular file wins. -/
def resolveRelativeTs (isFile : String → Bool) (fromFile spec : String) :
    Option String :=
  let base := resolvePosix (dirname fromFile) spec
  let candidates := [base] ++ JS_EXTS.map (fun e => base ++ e) ++
    JS_EXTS.map (fun e => resolvePosix base ("index" ++ e))
  candidates.find? isFile

/-- `getSubpathFromSpec(spec)`. -/
def getSubpathFromSpec (spec : String) : String :=
  if isRelativeSpec spec || strStartsWith "node:" spec then ""
  else
    let cs := spec.data
    match cs with
    | '@' :: rest =>
        match (splitChar '/' ('@' :: rest)) with
        | _ :: _ :: third => if third = [] then ""
            else ⟨'/' :: joinSegs third⟩
        | _ => ""
    | _ =>
        let after := cs.dropWhile (· ≠ '/')
        if after = [] then "" else ⟨after⟩

example : getSubpathFromSpec "pkg/sub/path" = "/sub/path" := by decide
example : getSubpathFromSpec "@scope/pkg/x" = "/x" := by decide
example : getSubpathFromSpec "@scope/pkg" = "" := by decide
example : getSubpathFromSpec "pkg" = "" := by decide

/-- Collapse a JavaScript-falsy (empty) string to `none`; every later
use of `target` in the source is truthiness-guarded. -/
def jsStr : Option String → Option String
  | some s => if s == "" then none else some s
  | none => none

/-- `tryResolveWithExtensions(full, fs)` (the `tried` set only avoids
duplicate stats; the first existing candidate is unchanged). -/
def tryResolveWithExtensions (isFile : String → Bool) (full : String) :
    Option String :=
  let tryList := [full] ++ JS_EXTS.map (fun e => full ++ e) ++
    JS_EXTS.map (fun e => joinPosix full ("index" ++ e))
  tryList.find? isFile

def jsField (v : JsonVal) (k : String) : Option JsonVal :=
  (jsEntries v).lookup k

/-- `resolvePackageExports(pkgRoot, pjson, spec, preferImport, fs)`. -/
def resolvePackageExports (isFile : String → Bool) (pkgRoot : String)
    (pjson : JsonVal) (spec : String) (preferImport : Bool) :
    Option String :=
  let exportsField := jsField pjson "exports"
  let mainField := jsStr (match jsField pjson "module" with
    | some (.str s) => some s
    | _ => match jsField pjson "main" with
           | some (.str s) => some s
           | _ => none)
  let subpath := getSubpathFromSpec spec
  let key := if subpath == "" then "." else "." ++ subpath
  let target1 := jsStr (deriveExportTarget exportsField key preferImport)
  let target2 := if target1 = none ∧ subpath == "" then
      some (mainField.getD "index.js")
    else target1
  match target2 with
  | none => none
  | some t =>
      let t' := if strStartsWith "./" t then ⟨t.data.drop 2⟩ else t
      tryResolveWithExtensions isFile (joinPosix pkgRoot t')

/-- `resolveId(fromFile, spec, fs)` on an empty resolution cache.
`reqResolve` is `createRequire(fromFile).resolve(spec)`; `pkgLookup`
is `readPackageSpec` (package-root discovery via the platform resolver
and manifest parsing), yielding the package root and parsed manifest. -/
def resolveId (reqResolve : String → String → Option String)
    (pkgLookup : String → Option (String × JsonVal))
    (isFile : String → Bool) (fromFile spec : String) : Option String :=
  if isBuiltin spec then none
  else
    match reqResolve fromFile spec with
    | some r => some r
    | none =>
        if isRelativeSpec spec then resolveRelativeTs isFile fromFile spec
        else
          match pkgLookup spec with
          | some (root, pjson) =>
              match resolvePackageExports isFile root pjson spec true with
              | some target => some target
              | none => none
          | none => none

/-- Modelled from the platform: `createRequire(fromFile).resolve(spec)`
for a relative/absolute specifier follows Node's documented CommonJS
algorithm — the literal path, then `.js`, `.json`, `.node`, then the
path as a directory with `index` under those extensions (the
`package.json`-`main` step of LOAD_AS_DIRECTORY is omitted; it is
irrelevant to the inputs considered here).  Node's resolver knows
nothing of TypeScript extensions. -/
def nodeCjsResolveRelative (isFile : String → Bool)
    (fromFile spec : String) : Option String :=
  if isRelativeSpec spec then
    let base := resolvePosix (dirname fromFile) spec
    ([base, base ++ ".js", base ++ ".json", base ++ ".node"] ++
      [joinPosix base "index.js", joinPosix base "index.json",
       joinPosix base "index.node"]).find? isFile
  else none

/-- The filesystem of the repository's own extension-priority test
(`test/resolver.test.ts`, "should prefer .ts over .js when both
exist"): both `priority.js` and `priority.ts` exist; `priority` itself
does not. -/
def prioIsFile (p : String) : Bool :=
  ["/t/entry.js", "/t/priority.js", "/t/priority.ts"].contains p

/-- C5: before any extension probing, `resolveId` consults
`createRequire(fromFile).resolve(spec)`, which resolves an
extensionless relative specifier to the `.js` file.  So with both
`priority.ts` and `priority.js` present (and `priority` itself not a
file), `resolveId` returns the `.js` path — although the TS-aware probe
order of `resolveRelativeTs` (which the claim describes, which the
spec prescribes, and which the repository's own test asserts) would
pick the `.ts` file. -/
theorem resolveId_extension_priority_bug :
    resolveId (nodeCjsResolveRelative prioIsFile) (fun _ => none)
      prioIsFile "/t/entry.js" "./priority" = some "/t/priority.js" ∧
    resolveRelativeTs prioIsFile "/t/entry.js" "./priority" =
      some "/t/priority.ts" ∧
    ("/t/priority.js" : String) ≠ "/t/priority.ts" := by
  decide

/-! ## Real-Path Resolver (`src/core/realpath.ts`)

`realpath(path, fs, base, seen)` recursively follows symlinks with a
shared `seen` set; a re-encountered path is a thrown cycle error.  The
recursion is not structurally bounded (an adversarial filesystem can
produce an unbounded chain of fresh paths), so the embedding takes a
fuel parameter; `fuelOut` marks exhaustion of the model's fuel, never a
behaviour of the source. -/

inductive RpResult where
  | ok (p : String)
  | cycleErr (p : String)
  | fuelOut
  deriving Repr, DecidableEq

/-- `inPath(path, parent)`: `path` starts with `join(parent, sep)` and
differs from it. -/
def inPath (path parent : String) : Bool :=
  let pathWithSep := joinPosix parent "/"
  strStartsWith pathWithSep path && path != pathWithSep

def realpathF (readlink : String → Option String) (base : String) :
    Nat → String → List String → RpResult
  | 0, _, _ => .fuelOut
  | fuel + 1, path, seen =>
      if seen.contains path then .cycleErr path
      else
        let seen' := path :: seen
        match readlink path with
        | some target =>
            realpathF readlink base fuel
              (resolvePosix (dirname path) target) seen'
        | none =>
            if !inPath path base then .ok path
            else
              match realpathF readlink base fuel (dirname path) seen' with
              | .ok parent => .ok (joinPosix parent (basename path))
              | e => e

example :
    realpathF (fun _ => none) "/base" 4 "/base/a.js" [] =
      .ok "/base/a.js" := by decide

/-! ## Pure Dependency Traversal (`src/core/dependency-tracer.ts`,
`traceDependencies`)

The traversal owns a visited set and a worklist popped from the end
(`queue.pop()`); we keep the worklist with its top at the head.  The
components it calls through module boundaries are oracle fields:
`readlink` feeds the embedded `realpathF`, `readFile` is the cached
accessor (`none` = read failure), `scan` is `scanSpecifiers`, and
`resolve` is `resolveId` (`none` = unresolved).  The traversal fuel
bounds the number of loop iterations; `none` is returned only on fuel
exhaustion, a model artifact. -/

structure TraceOracle where
  readlink : String → Option String
  readFile : String → Option String
  scan : String → List String
  resolve : String → String → Option String

def isAsciiAlpha (c : Char) : Bool :=
  (0x41 ≤ c.toNat && c.toNat ≤ 0x5A) || (0x61 ≤ c.toNat && c.toNat ≤ 0x7A)

/-- The `/^[a-zA-Z]+:/` test: one or more leading ASCII letters
directly followed by `':'`. -/
def isUrlLike (s : String) : Bool :=
  let letters := s.data.takeWhile isAsciiAlpha
  !letters.isEmpty && (s.data.drop letters.length).head? = some ':'

/-- The `jsLike` extension set of the traversal. -/
def jsLikeExts : List String :=
  [".js", ".mjs", ".cjs", ".ts", ".tsx", ".mts", ".cts", ".jsx", ""]

/-- The specifier-skip test of the traversal loop: URL-like, built-in,
or matching the external set by `has(spec) || has(spec + "/")`. -/
def shouldSkipTraceSpec (external : List String) (spec : String) : Bool :=
  isUrlLike spec || isBuiltin spec ||
    external.contains spec || external.contains (spec ++ "/")

def traceGo (o : TraceOracle) (base : String) (external : List String)
    (rpFuel : Nat) :
    Nat → List String → List String → Option (List String)
  | 0, _, _ => none
  | _ + 1, visited, [] => some visited
  | fuel + 1, visited, file :: rest =>
      if visited.contains file then
        traceGo o base external rpFuel fuel visited rest
      else
        let visited' := visited ++ [file]
        let rpOpt : Option String :=
          match realpathF o.readlink base rpFuel file [] with
          | .ok p => some p
          | .cycleErr _ => some file  -- `.catch(() => file)`
          | .fuelOut => none
        match rpOpt with
        | none => none
        | some rp =>
            if !(jsLikeExts.contains (extname rp)) then
              traceGo o base external rpFuel fuel visited' rest
            else
              match o.readFile rp with
              | none => traceGo o base external rpFuel fuel visited' rest
              | some code =>
                  let pushes := (o.scan code).filterMap fun spec =>
                    if shouldSkipTraceSpec external spec then none
                    else
                      match o.resolve rp spec with
                      | some r => if r == "" then none else some r
                      | none => none
                  traceGo o base external rpFuel fuel visited'
                    (pushes.foldl (fun st r => r :: st) rest)

/-- `traceDependencies(entry, opts)`. -/
def traceDependencies (o : TraceOracle) (optsBase : Option String)
    (cwd : String) (external : List String) (rpFuel fuel : Nat)
    (entry : String) : Option (List String) :=
  let base := resolveCwd cwd (optsBase.getD cwd)
  traceGo o base external rpFuel fuel [] [resolveCwd cwd entry]

/-- C1: for any two distinct files `A` and `B` whose sources import
each other (the scanner yields one specifier from each, resolving to
the other file), the traversal's worklist loop reaches its fixed point
within four iterations — and stays there for any larger fuel, i.e. it
terminates — with the visited set exactly `{A, B}`; the visited-set
membership test is what stops the third iteration from re-processing
`A`. -/
theorem traceDependencies_import_cycle
    (o : TraceOracle) (optsBase : Option String)
    (cwd base A B cA cB sA sB : String) (external : List String)
    (rpFuel n : Nat)
    (hbase : resolveCwd cwd (optsBase.getD cwd) = base)
    (hentry : resolveCwd cwd A = A)
    (hAB : A ≠ B)
    (hrpA : realpathF o.readlink base rpFuel A [] = .ok A)
    (hrpB : realpathF o.readlink base rpFuel B [] = .ok B)
    (hextA : jsLikeExts.contains (extname A) = true)
    (hextB : jsLikeExts.contains (extname B) = true)
    (hreadA : o.readFile A = some cA)
    (hreadB : o.readFile B = some cB)
    (hscanA : o.scan cA = [sA])
    (hscanB : o.scan cB = [sB])
    (hskipA : shouldSkipTraceSpec external sA = false)
    (hskipB : shouldSkipTraceSpec external sB = false)
    (hresA : o.resolve A sA = some B)
    (hresB : o.resolve B sB = some A)
    (hBne : (B == "") = false)
    (hAne : (A == "") = false) :
    traceDependencies o optsBase cwd external rpFuel (n + 4) A =
      some [A, B] := by
  have hBA : (B == A) = false := by
    simp only [beq_eq_false_iff_ne]
    exact fun h => hAB h.symm
  have hc0 : ([] : List String).contains A = false := rfl
  have hc1 : ([A] : List String).contains B = false := by
    simp [List.contains, List.elem, hBA]
  have hc2 : ([A, B] : List String).contains A = true := by
    simp [List.contains, List.elem]
  unfold traceDependencies
  rw [hbase, hentry]
  simp only [traceGo, hc0, hc1, hc2, List.nil_append, List.cons_append,
    hrpA, hrpB, hextA, hextB, hreadA, hreadB, hscanA, hscanB,
    List.filterMap, hskipA, hskipB, hresA, hresB, hBne, hAne,
    beq_self_eq_true, Bool.not_true, Bool.not_false, if_false, if_true,
    List.foldl, Bool.false_eq_true, ite_false, ite_true]

/-- A concrete two-file import cycle: `/base/a.js` imports `./b.js` and
`/base/b.js` imports `./a.js`; no symlinks. -/
def cycleOracle : TraceOracle where
  readlink := fun _ => none
  readFile := fun p =>
    if p = "/base/a.js" then some "import './b.js';"
    else if p = "/base/b.js" then some "import './a.js';" else none
  scan := fun c =>
    if c = "import './b.js';" then ["./b.js"]
    else if c = "import './a.js';" then ["./a.js"] else []
  resolve := fun f s =>
    if f = "/base/a.js" ∧ s = "./b.js" then some "/base/b.js"
    else if f = "/base/b.js" ∧ s = "./a.js" then some "/base/a.js"
    else none

/-- Witness for `traceDependencies_import_cycle` on the concrete
two-file cycle. -/
theorem traceDependencies_import_cycle_witness :
    traceDependencies cycleOracle (some "/base") "/" [] 4 4
      "/base/a.js" = some ["/base/a.js", "/base/b.js"] :=
  traceDependencies_import_cycle cycleOracle (some "/base") "/" "/base"
    "/base/a.js" "/base/b.js" "import './b.js';" "import './a.js';"
    "./b.js" "./a.js" [] 4 0
    (by decide) (by decide) (by decide) (by decide) (by decide)
    (by decide) (by decide) (by decide) (by decide) (by decide)
    (by decide) (by decide) (by decide) (by decide) (by decide)
    (by decide) (by decide)

/-- A symlink two-cycle: `/base/a.js → /base/b.js → /base/a.js`.  No
file is readable. -/
def symCycleOracle : TraceOracle where
  readlink := fun p =>
    if p = "/base/a.js" then some "/base/b.js"
    else if p = "/base/b.js" then some "/base/a.js" else none
  readFile := fun _ => none
  scan := fun _ => []
  resolve := fun _ _ => none

/-- C2 (counterexample): with a symlink cycle at the entry, the
Real-Path Resolver does throw its cycle error — but `traceDependencies`
returns a normal result instead of propagating it, because the
traversal wraps the `realpath` call in `.catch(() => file)`.  This
refutes the claim that the traversal rejects. -/
theorem trace_symlink_cycle_not_propagated :
    realpathF symCycleOracle.readlink "/base" 5 "/base/a.js" [] =
      .cycleErr "/base/a.js" ∧
    traceDependencies symCycleOracle (some "/base") "/" [] 5 2
      "/base/a.js" = some ["/base/a.js"] := by
  decide

/-- C2 (amended): a real-path cycle is a hard error of the Real-Path
Resolver, but the pure dependency traversal catches it and falls back
to the un-canonicalized popped path; with the entry also unreadable
(absorbed as a leaf), the traversal returns `{entry}` rather than
rejecting. -/
theorem trace_cycle_absorbed
    (o : TraceOracle) (optsBase : Option String)
    (cwd base entry p : String) (external : List String)
    (rpFuel n : Nat)
    (hbase : resolveCwd cwd (optsBase.getD cwd) = base)
    (hentry : resolveCwd cwd entry = entry)
    (hrp : realpathF o.readlink base rpFuel entry [] = .cycleErr p)
    (hext : jsLikeExts.contains (extname entry) = true)
    (hread : o.readFile entry = none) :
    traceDependencies o optsBase cwd external rpFuel (n + 2) entry =
      some [entry] := by
  have hc0 : ([] : List String).contains entry = false := rfl
  unfold traceDependencies
  rw [hbase, hentry]
  simp only [traceGo, hc0, hrp, hext, hread, List.nil_append,
    Bool.not_true, if_false, ite_false, Bool.false_eq_true]

/-- Witness for `trace_cycle_absorbed` on the concrete symlink cycle. -/
theorem trace_cycle_absorbed_witness :
    traceDependencies symCycleOracle (some "/base") "/" [] 5 2
      "/base/a.js" = some ["/base/a.js"] :=
  trace_cycle_absorbed symCycleOracle (some "/base") "/" "/base"
    "/base/a.js" "/base/a.js" [] 5 0
    (by decide) (by decide) (by decide) (by decide) (by decide)

/-! ## External-pattern matching (traversal loop and
`AssetAnalyzer.shouldSkipDependency`, `src/core/asset-analyzer.ts`) -/

/-- `looksLikeModule(path)` of the asset analyzer. -/
def looksLikeModule (path : String) : Bool :=
  let ext := extname path
  jsLikeExts.contains ext || "/index".data.isSuffixOf path.data ||
    (ext == "" && !(path.data.contains '.'))

/-- `AssetAnalyzer.shouldSkipDependency(specifier)` for a given
`external` set. -/
def shouldSkipDependency (external : List String) (specifier : String) :
    Bool :=
  if isBuiltin specifier then true
  else if external.contains specifier ||
      external.contains (specifier ++ "/") then true
  else if isUrlLike specifier then true
  else if strStartsWith "./" specifier ||
      strStartsWith "../" specifier then !looksLikeModule specifier
  else false

/-- A file importing `name/subpath`, which resolves to `/b/n.js`. -/
def extOracle : TraceOracle where
  readlink := fun _ => none
  readFile := fun p =>
    if p = "/b/e.js" then some "require('name/subpath')" else none
  scan := fun c =>
    if c = "require('name/subpath')" then ["name/subpath"] else []
  resolve := fun f s =>
    if f = "/b/e.js" ∧ s = "name/subpath" then some "/b/n.js" else none

/-- C6 (counterexample): with the external entry `"name/"`, the
specifier `"name/subpath"` is *not* skipped — neither by the
traversal's check nor by the asset analyzer's — and the traversal
resolves and visits it.  The external test is
`has(spec) || has(spec + "/")`, not a prefix match. -/
theorem external_prefix_entry_not_prefix_match :
    shouldSkipTraceSpec ["name/"] "name/subpath" = false ∧
    shouldSkipDependency ["name/"] "name/subpath" = false ∧
    traceDependencies extOracle (some "/b") "/" ["name/"] 4 3
      "/b/e.js" = some ["/b/e.js", "/b/n.js"] := by
  decide

/-- C6 (amended): an external entry `"name/"` excludes the bare
specifier `"name"` (via the `spec + "/"` lookup) — but a specifier
`"name/sub"` under it is only excluded if it, or it plus a trailing
slash, is itself listed; being URL-like or built-in aside, prefix
matching does not happen. -/
theorem external_match_semantics (external : List String)
    (name sub : String)
    (h1 : external.contains (name ++ "/") = true)
    (hnu : isUrlLike (name ++ "/" ++ sub) = false)
    (hnb : isBuiltin (name ++ "/" ++ sub) = false)
    (hne1 : external.contains (name ++ "/" ++ sub) = false)
    (hne2 : external.contains (name ++ "/" ++ sub ++ "/") = false) :
    shouldSkipTraceSpec external name = true ∧
    shouldSkipTraceSpec external (name ++ "/" ++ sub) = false := by
  constructor
  · simp only [shouldSkipTraceSpec, h1, Bool.or_true]
  · simp only [shouldSkipTraceSpec, hnu, hnb, hne1, hne2, Bool.or_false,
      Bool.false_or]

/-- Witness for `external_match_semantics`: `external = ["lodash/"]`
skips `"lodash"` but not `"lodash/fp"`. -/
theorem external_match_semantics_witness :
    shouldSkipTraceSpec ["lodash/"] "lodash" = true ∧
    shouldSkipTraceSpec ["lodash/"] "lodash/fp" = false := by
  have h := external_match_semantics ["lodash/"] "lodash" "fp"
    (by decide) (by decide) (by decide) (by decide) (by decide)
  exact ⟨h.1, by simpa using h.2⟩

end Trimpack
